import Mathlib

/-!
# Verification of the LLM proxy / router core

Shallow embedding of the Go sources:
* `multi-model-router.go` — `ModelRouter` with `RouteRequest` / `tryFallbacks`
* the proxy pipeline file — `LLMProxy.ProcessRequest`, `checkRateLimits`,
  `recordMetrics`, `makeRequestWithRetries`

Conventions: Go `int` / `int64` / `time.Duration` become `Int`; `float64`
(costs) becomes `ℚ`; Go maps become association lists looked up with
`List.lookup`; a provider's `GenerateText` (whose body is external) is an
oracle function returning `Option` (`none` = Go error). Functions that the
pipeline calls but whose bodies are absent from the source
(`checkCache`, `cacheResponse`, `makeRequest`) are modelled from the
specification, as marked in their doc comments.
-/

namespace LLMSpec

/-! ## Router data model (multi-model-router.go) -/

/-- `ModelRequest` from multi-model-router.go: prompt, max tokens,
temperature, provider id, model name, metadata. -/
structure ModelRequest where
  prompt : String
  maxTokens : Int
  temperature : ℚ
  provider : String
  modelName : String
  metadata : List (String × String)
deriving DecidableEq, Repr

/-- `ModelResponse` from multi-model-router.go. -/
structure ModelResponse where
  text : String
  provider : String
  modelName : String
  tokensUsed : Int
  latency : Int
  metadata : List (String × String)
deriving DecidableEq, Repr

/-- The `ModelProvider` interface: `IsAvailable` is a fixed flag and
`GenerateText` an oracle; `none` models a Go error return. -/
structure ModelProviderImpl where
  available : Bool
  generate : ModelRequest → Option ModelResponse

/-- `ModelRouter`: provider map and per-model fallback chains, as
association lists (later `RegisterProvider`/`SetFallbacks` entries shadow
earlier ones, matching Go map overwrite under `List.lookup`). -/
structure ModelRouter where
  providers : List (String × ModelProviderImpl)
  fallbacks : List (String × List String)

/-- The three routing errors of multi-model-router.go. -/
inductive RouteError where
  | providerNotFound
  | noFallbacksConfigured
  | allFallbacksFailed
deriving DecidableEq, Repr

/-- The exact `errors.New` message of each routing error. -/
def RouteError.message : RouteError → String
  | .providerNotFound => "provider not found"
  | .noFallbacksConfigured => "no fallbacks configured"
  | .allFallbacksFailed => "all fallbacks failed"

/-- `RegisterProvider`: insert/overwrite in the provider map. -/
def RegisterProvider (r : ModelRouter) (id : String) (p : ModelProviderImpl) : ModelRouter :=
  { r with providers := (id, p) :: r.providers }

/-- `SetFallbacks`: insert/overwrite the fallback chain of a model name. -/
def SetFallbacks (r : ModelRouter) (modelName : String) (chain : List String) : ModelRouter :=
  { r with fallbacks := (modelName, chain) :: r.fallbacks }

/-- The loop body of `tryFallbacks`: walk the chain in order; for each
candidate build `fallbackReq := req` with `ModelName` substituted, re-look
up `providers[req.Provider]` (skip on absence), skip if unavailable,
attempt generation and return the first success.  Also returns the trace
of requests on which `GenerateText` was invoked. -/
def tryChain (r : ModelRouter) (req : ModelRequest) :
    List String → Except RouteError ModelResponse × List ModelRequest
  | [] => (.error .allFallbacksFailed, [])
  | m :: rest =>
    let fallbackReq := { req with modelName := m }
    match r.providers.lookup req.provider with
    | none => tryChain r req rest
    | some p =>
      if p.available then
        match p.generate fallbackReq with
        | some resp => (.ok resp, [fallbackReq])
        | none =>
          let (res, tr) := tryChain r req rest
          (res, fallbackReq :: tr)
      else tryChain r req rest

/-- `tryFallbacks`: look up the fallback chain of `req.ModelName`; if none
is configured fail with "no fallbacks configured", else run the chain. -/
def tryFallbacks (r : ModelRouter) (req : ModelRequest) :
    Except RouteError ModelResponse × List ModelRequest :=
  match r.fallbacks.lookup req.modelName with
  | none => (.error .noFallbacksConfigured, [])
  | some chain => tryChain r req chain

/-- `RouteRequest`: look up the provider (absent ⇒ "provider not found");
if available try the primary model and return on success; on failure or
unavailability fall through to `tryFallbacks`.  The second component is
the trace of requests passed to `GenerateText`. -/
def RouteRequest (r : ModelRouter) (req : ModelRequest) :
    Except RouteError ModelResponse × List ModelRequest :=
  match r.providers.lookup req.provider with
  | none => (.error .providerNotFound, [])
  | some p =>
    if p.available then
      match p.generate req with
      | some resp => (.ok resp, [req])
      | none =>
        let (res, tr) := tryFallbacks r req
        (res, req :: tr)
    else tryFallbacks r req

/-! ## Proxy pipeline data model (LLMProxy source file) -/

/-- `RetryConfig`: `MaxRetries : int`, `BackoffBase : time.Duration`. -/
structure RetryConfig where
  maxRetries : Int
  backoffBase : Int
deriving DecidableEq, Repr

/-- `ProxyConfig` (the `CustomHeaders` transport field is out of core
scope and omitted; `FilterFunction` is the optional PII hook). -/
structure ProxyConfig where
  apiKey : String
  cacheEnabled : Bool
  retryConfig : RetryConfig
  rateLimit : Int
  costLimit : ℚ
  filterFunction : Option (String → String)

/-- `ProxyMetrics`: the shared cumulative totals (the `sync.RWMutex` is
represented by the sequential state threading of the embedding). -/
structure ProxyMetrics where
  totalRequests : Int
  cacheHits : Int
  latency : Int
  tokensUsed : Int
  estimatedCost : ℚ
deriving DecidableEq, Repr

/-- `CacheEntry`: payload, expiration timestamp, tokens, cost. -/
structure CacheEntry where
  response : String
  expiration : Int
  tokensUsed : Int
  cost : ℚ
deriving DecidableEq, Repr

/-- `Request` from the proxy source. -/
structure Request where
  prompt : String
  model : String
  temperature : ℚ
  maxTokens : Int
  metadata : List (String × String)
  cacheKey : String
  requestID : String
  userID : String
deriving DecidableEq, Repr

/-- `ProxyResponse` from the proxy source. -/
structure ProxyResponse where
  text : String
  tokensUsed : Int
  cost : ℚ
  cacheHit : Bool
  latency : Int
  model : String
  metadata : List (String × String)
deriving DecidableEq, Repr

/-- Errors surfaced by the pipeline.  `admissionDenied` is the
`"daily cost limit exceeded: %.2f"` error and carries the configured
ceiling; `maxRetriesExceeded` is `"max retries exceeded: %w"` and wraps
the last underlying failure (`none` = wrapped nil); `contextError` is
`ctx.Err()` propagated from the governing context. -/
inductive ProxyError where
  | admissionDenied (limit : ℚ)
  | maxRetriesExceeded (last : Option String)
  | contextError
deriving DecidableEq, Repr

/-- Mutable proxy state: metrics plus the cache's entry map (an
association list; a fresh write is consed on and shadows the old entry,
matching last-writer-wins overwrite under `List.lookup`). -/
structure ProxyState where
  metrics : ProxyMetrics
  cache : List (String × CacheEntry)
deriving Repr

/-- `checkRateLimits`: under the metrics lock, fail with the
admission-denied error carrying the configured ceiling when
`EstimatedCost >= CostLimit`. -/
def checkRateLimits (cfg : ProxyConfig) (m : ProxyMetrics) : Option ProxyError :=
  if cfg.costLimit ≤ m.estimatedCost then some (.admissionDenied cfg.costLimit) else none

/-- `recordMetrics`: increment total requests, conditionally increment
cache hits, and add latency/tokens/cost to the running totals. -/
def recordMetrics (m : ProxyMetrics) (latency : Int) (tokens : Int) (cost : ℚ)
    (cacheHit : Bool) : ProxyMetrics :=
  { m with
    totalRequests := m.totalRequests + 1
    cacheHits := if cacheHit then m.cacheHits + 1 else m.cacheHits
    latency := m.latency + latency
    tokensUsed := m.tokensUsed + tokens
    estimatedCost := m.estimatedCost + cost }

/-- Modelled from the spec: `RequestCache.checkCache` is called by
`ProcessRequest` but its body is absent from the source.  Per §4.1,
`get(key)` returns `(entry, found=true)` only if the key is non-empty, an
entry exists, and its expiration is in the future; otherwise
`found=false`.  `now` is the lookup time. -/
def checkCache (cache : List (String × CacheEntry)) (now : Int) (key : String) :
    Option CacheEntry :=
  if key = "" then none
  else
    match cache.lookup key with
    | none => none
    | some e => if now < e.expiration then some e else none

/-- Modelled from the spec: `cacheResponse` is called by `ProcessRequest`
but its body is absent from the source.  Per §4.1, `put(key, response,
ttl)` unconditionally overwrites any existing entry for that key with
expiration `now + ttl`; the entry stores the response payload, tokens and
cost. -/
def cacheResponse (cache : List (String × CacheEntry)) (now ttl : Int) (key : String)
    (resp : ProxyResponse) : List (String × CacheEntry) :=
  (key, { response := resp.text, expiration := now + ttl,
          tokensUsed := resp.tokensUsed, cost := resp.cost }) :: cache

/-- The int64 wrap-around of Go arithmetic on `time.Duration`. -/
def wrap64 (n : Int) : Int := (n + 2 ^ 63) % 2 ^ 64 - 2 ^ 63

/-- The backoff computation
`BackoffBase * time.Duration(1<<attempt)`: both the shift and the
multiplication are signed 64-bit and wrap on overflow. -/
def backoffDelay (base : Int) (attempt : Nat) : Int :=
  wrap64 (base * wrap64 ((2 : Int) ^ attempt))

/-- The retry loop of `makeRequestWithRetries`.  `mk attempt` is the
outcome of `p.makeRequest` on the `attempt`-th try (an oracle — the body
of `makeRequest` is external provider work absent from the source);
`cancelled attempt` says whether the governing context concludes during
the backoff wait that follows the `attempt`-th failure.  Returns the
result, the list of attempt indices on which `mk` was invoked, and the
list of backoff durations whose waits completed. -/
def retryLoop (mk : Nat → Except String ProxyResponse) (cancelled : Nat → Bool)
    (base : Int) :
    Nat → Nat → Option String → Except ProxyError ProxyResponse × List Nat × List Int
  | _, 0, lastErr => (.error (.maxRetriesExceeded lastErr), [], [])
  | attempt, fuel + 1, _ =>
    match mk attempt with
    | .ok r => (.ok r, [attempt], [])
    | .error e =>
      if cancelled attempt then (.error .contextError, [attempt], [])
      else
        let (res, as, ws) := retryLoop mk cancelled base (attempt + 1) fuel (some e)
        (res, attempt :: as, backoffDelay base attempt :: ws)

/-- `makeRequestWithRetries`: run the loop for
`attempt := 0; attempt < MaxRetries` starting from a nil `lastErr`. -/
def makeRequestWithRetries (cfg : RetryConfig) (mk : Nat → Except String ProxyResponse)
    (cancelled : Nat → Bool) :
    Except ProxyError ProxyResponse × List Nat × List Int :=
  retryLoop mk cancelled cfg.backoffBase 0 cfg.maxRetries.toNat none

/-- The per-call inputs of one `ProcessRequest` invocation: the request
and the oracles for the parts outside the core (provider outcomes per
attempt, context cancellation per backoff wait, the wall-clock reading
used for cache expiry and the write expiration, the measured latencies,
and the cache TTL — the TTL is a required parameter per the spec, the
source never fixing one). -/
structure CallInput where
  req : Request
  makeRequest : Request → Nat → Except String ProxyResponse
  cancelled : Nat → Bool
  now : Int
  hitLatency : Int
  missLatency : Int
  ttl : Int

/-- The observable outcome of one `ProcessRequest` call: the returned
value, the proxy state afterwards, the attempt indices on which the
provider (`makeRequest`) was invoked, and whether the retry executor
(`makeRequestWithRetries`) was entered at all. -/
structure ProcessOutcome where
  result : Except ProxyError ProxyResponse
  state : ProxyState
  providerAttempts : List Nat
  retryInvoked : Bool

/-- The PII filter step: apply `FilterFunction` to the prompt when
configured. -/
def applyFilter (cfg : ProxyConfig) (req : Request) : Request :=
  match cfg.filterFunction with
  | some f => { req with prompt := f req.prompt }
  | none => req

/-- `ProcessRequest`: admission check (return immediately on denial);
PII filter on the prompt; cache consult when enabled (on hit record a
zero-latency cache-hit outcome and return the cached payload); otherwise
retry-wrapped provider call, metrics update with the real outcome, and a
cache write when enabled. -/
def ProcessRequest (cfg : ProxyConfig) (st : ProxyState) (c : CallInput) : ProcessOutcome :=
  match checkRateLimits cfg st.metrics with
  | some e => ⟨.error e, st, [], false⟩
  | none =>
    let req := applyFilter cfg c.req
    match (if cfg.cacheEnabled then checkCache st.cache c.now req.cacheKey else none) with
    | some cached =>
      ⟨.ok { text := cached.response, tokensUsed := cached.tokensUsed, cost := cached.cost,
             cacheHit := true, latency := c.hitLatency, model := "", metadata := [] },
       { st with metrics := recordMetrics st.metrics 0 cached.tokensUsed cached.cost true },
       [], false⟩
    | none =>
      match makeRequestWithRetries cfg.retryConfig (c.makeRequest req) c.cancelled with
      | (.error e, attempts, _) => ⟨.error e, st, attempts, true⟩
      | (.ok resp, attempts, _) =>
        let metrics := recordMetrics st.metrics c.missLatency resp.tokensUsed resp.cost false
        let cache :=
          if cfg.cacheEnabled then cacheResponse st.cache c.now c.ttl req.cacheKey resp
          else st.cache
        ⟨.ok resp, ⟨metrics, cache⟩, attempts, true⟩

/-- Process a sequence of requests, threading the proxy state; returns
the final state and the list of per-call results. -/
def processSeq (cfg : ProxyConfig) :
    ProxyState → List CallInput → ProxyState × List (Except ProxyError ProxyResponse)
  | st, [] => (st, [])
  | st, c :: cs =>
    let out := ProcessRequest cfg st c
    let (st', rest) := processSeq cfg out.state cs
    (st', out.result :: rest)

/-- The cost a single pipeline result contributes to the cumulative
estimated cost: a returned response's cost, or nothing on failure. -/
def okCost : Except ProxyError ProxyResponse → ℚ
  | .ok resp => resp.cost
  | .error _ => 0

/-! ## Concrete scenarios used as witnesses and counterexamples -/

/-- A provider reporting unavailable (its generation oracle is never
reached). -/
def unavailableProvider : ModelProviderImpl := ⟨false, fun _ => none⟩

/-- A provider that is available but whose every generation attempt
fails. -/
def flakyProvider : ModelProviderImpl := ⟨true, fun _ => none⟩

/-- A provider that is available and succeeds exactly on model "m3". -/
def pickyProvider : ModelProviderImpl :=
  ⟨true, fun q => if q.modelName = "m3" then
      some ⟨"ok", q.provider, q.modelName, 5, 1, []⟩ else none⟩

/-- A request for model "m1" at provider "openai". -/
def reqM1 : ModelRequest := ⟨"hello", 100, 0, "openai", "m1", []⟩

/-- Router with "openai" unavailable and chain m1 ↦ [m2, m3]. -/
def routerC2 : ModelRouter := ⟨[("openai", unavailableProvider)], [("m1", ["m2", "m3"])]⟩

/-- Router with an always-failing available provider and no chains. -/
def routerNoChain : ModelRouter := ⟨[("openai", flakyProvider)], []⟩

/-- Router with an always-failing available provider and chain
m1 ↦ [m2, m3]. -/
def routerChainFails : ModelRouter := ⟨[("openai", flakyProvider)], [("m1", ["m2", "m3"])]⟩

/-- Router with `pickyProvider` and chain m1 ↦ [m2, m3]. -/
def routerC7 : ModelRouter := ⟨[("openai", pickyProvider)], [("m1", ["m2", "m3"])]⟩

/-- A concrete successful provider response. -/
def respOk : ProxyResponse := ⟨"answer", 10, 1, false, 7, "gpt-4", []⟩

/-- A response reporting a negative cost. -/
def respNeg : ProxyResponse := ⟨"cheap", 5, -1, false, 4, "gpt-4", []⟩

/-- An attempt oracle that fails on every try. -/
def alwaysFail : Nat → Except String ProxyResponse := fun _ => .error "transient"

/-- An attempt oracle that succeeds on every try. -/
def okOracle : Nat → Except String ProxyResponse := fun _ => .ok respOk

/-- An attempt oracle failing on attempts 0 and 1 and succeeding on 2. -/
def mkSucceedAt2 : Nat → Except String ProxyResponse :=
  fun i => if i = 2 then .ok respOk else .error "transient"

/-- A context that never concludes. -/
def neverCancel : Nat → Bool := fun _ => false

/-- A context that concludes during the backoff wait after attempt 1. -/
def cancelAt1 : Nat → Bool := fun i => i == 1

/-- A pipeline request carrying cache key "k1". -/
def reqA : Request := ⟨"prompt", "gpt-4", 0, 100, [], "k1", "r1", "u1"⟩

/-- A pipeline request with an absent (empty) cache key. -/
def reqNoKey : Request := ⟨"prompt", "gpt-4", 0, 100, [], "", "r2", "u1"⟩

/-- A configuration with caching enabled, three retries and a cost
ceiling of 50. -/
def cfgCache : ProxyConfig := ⟨"key", true, ⟨3, 100⟩, 100, 50, none⟩

/-- A configuration with caching disabled, one retry and a cost ceiling
of 50. -/
def cfgNoCache : ProxyConfig := ⟨"key", false, ⟨1, 100⟩, 100, 50, none⟩

/-- A configuration whose cost ceiling is 5. -/
def cfgTight : ProxyConfig := ⟨"key", true, ⟨3, 100⟩, 100, 5, none⟩

/-- Proxy state whose cumulative estimated cost 5 has reached
`cfgTight`'s ceiling. -/
def stAtLimit : ProxyState := ⟨⟨7, 2, 50, 300, 5⟩, []⟩

/-- Proxy state holding a cache entry for "k1" expiring at time 10,
with cumulative cost 2. -/
def stWithEntry : ProxyState := ⟨⟨3, 1, 20, 100, 2⟩, [("k1", ⟨"cached!", 10, 4, 1⟩)]⟩

/-- Proxy state with empty cache and cumulative cost 3. -/
def stStart : ProxyState := ⟨⟨1, 0, 0, 0, 3⟩, []⟩

/-- The freshly initialised proxy state: all totals zero, empty cache. -/
def stZero : ProxyState := ⟨⟨0, 0, 0, 0, 0⟩, []⟩

/-- A call whose provider oracle succeeds immediately. -/
def inOk : CallInput := ⟨reqA, fun _ _ => .ok respOk, neverCancel, 5, 1, 3, 60⟩

/-- A call on the empty-cache-key request whose provider oracle succeeds
immediately. -/
def inNoKey : CallInput := ⟨reqNoKey, fun _ _ => .ok respOk, neverCancel, 0, 1, 3, 60⟩

/-- A call whose provider oracle returns the negative-cost response. -/
def inNeg : CallInput := ⟨reqA, fun _ _ => .ok respNeg, neverCancel, 0, 1, 2, 60⟩

/-! ## Helper lemmas: the fallback chain walk -/

theorem tryChain_unavailable (r : ModelRouter) (req : ModelRequest) (p : ModelProviderImpl)
    (hp : r.providers.lookup req.provider = some p) (hav : p.available = false) :
    ∀ chain, tryChain r req chain = (.error .allFallbacksFailed, [])
  | [] => rfl
  | m :: rest => by
    simp only [tryChain, hp, hav]
    exact tryChain_unavailable r req p hp hav rest

theorem tryChain_allFail (r : ModelRouter) (req : ModelRequest) (p : ModelProviderImpl)
    (hp : r.providers.lookup req.provider = some p) :
    ∀ chain, (∀ m ∈ chain, p.available = false ∨ p.generate { req with modelName := m } = none) →
      (tryChain r req chain).1 = .error .allFallbacksFailed
  | [], _ => rfl
  | m :: rest, h => by
    rcases hav : p.available with _ | _
    · rw [tryChain_unavailable r req p hp hav]
    · have hgen : p.generate { req with modelName := m } = none := by
        rcases h m (List.mem_cons_self m rest) with h' | h'
        · exact absurd (hav.symm.trans h') (by simp)
        · exact h'
      have ih := tryChain_allFail r req p hp rest (fun m' hm' => h m' (List.mem_cons_of_mem m hm'))
      simp only [tryChain, hp, hav, if_true, hgen]
      rcases hrec : tryChain r req rest with ⟨res, tr⟩
      rw [hrec] at ih
      simpa using ih

theorem tryChain_cons_noProvider (r : ModelRouter) (req : ModelRequest) (m : String)
    (rest : List String) (hl : r.providers.lookup req.provider = none) :
    tryChain r req (m :: rest) = tryChain r req rest := by
  simp [tryChain, hl]

theorem tryChain_cons_unavail (r : ModelRouter) (req : ModelRequest) (m : String)
    (rest : List String) (p : ModelProviderImpl)
    (hl : r.providers.lookup req.provider = some p) (hav : p.available = false) :
    tryChain r req (m :: rest) = tryChain r req rest := by
  simp [tryChain, hl, hav]

theorem tryChain_cons_ok (r : ModelRouter) (req : ModelRequest) (m : String)
    (rest : List String) (p : ModelProviderImpl) (resp : ModelResponse)
    (hl : r.providers.lookup req.provider = some p) (hav : p.available = true)
    (hg : p.generate { req with modelName := m } = some resp) :
    tryChain r req (m :: rest) = (.ok resp, [{ req with modelName := m }]) := by
  simp [tryChain, hl, hav, hg]

theorem tryChain_cons_fail (r : ModelRouter) (req : ModelRequest) (m : String)
    (rest : List String) (p : ModelProviderImpl)
    (hl : r.providers.lookup req.provider = some p) (hav : p.available = true)
    (hg : p.generate { req with modelName := m } = none) :
    tryChain r req (m :: rest) =
      ((tryChain r req rest).1, { req with modelName := m } :: (tryChain r req rest).2) := by
  rcases hrec : tryChain r req rest with ⟨res, tr⟩
  simp [tryChain, hl, hav, hg, hrec]

theorem tryChain_trace_mem (r : ModelRouter) (req : ModelRequest) :
    ∀ chain, ∀ q ∈ (tryChain r req chain).2, ∃ m ∈ chain, q = { req with modelName := m }
  | [] => by simp [tryChain]
  | m :: rest => by
    intro q hq
    rcases hl : r.providers.lookup req.provider with _ | p
    · rw [tryChain_cons_noProvider r req m rest hl] at hq
      rcases tryChain_trace_mem r req rest q hq with ⟨m', hm', hq'⟩
      exact ⟨m', List.mem_cons_of_mem m hm', hq'⟩
    · rcases hav : p.available with _ | _
      · rw [tryChain_cons_unavail r req m rest p hl hav] at hq
        rcases tryChain_trace_mem r req rest q hq with ⟨m', hm', hq'⟩
        exact ⟨m', List.mem_cons_of_mem m hm', hq'⟩
      · rcases hg : p.generate { req with modelName := m } with _ | resp
        · rw [tryChain_cons_fail r req m rest p hl hav hg] at hq
          simp only [List.mem_cons] at hq
          rcases hq with hq | hq
          · exact ⟨m, List.mem_cons_self m rest, hq⟩
          · rcases tryChain_trace_mem r req rest q hq with ⟨m', hm', hq'⟩
            exact ⟨m', List.mem_cons_of_mem m hm', hq'⟩
        · rw [tryChain_cons_ok r req m rest p resp hl hav hg] at hq
          simp only [List.mem_singleton] at hq
          exact ⟨m, List.mem_cons_self m rest, hq⟩

theorem tryChain_trace_sublist (r : ModelRouter) (req : ModelRequest) :
    ∀ chain, ((tryChain r req chain).2.map (fun q => q.modelName)).Sublist chain
  | [] => by simp [tryChain]
  | m :: rest => by
    rcases hl : r.providers.lookup req.provider with _ | p
    · rw [tryChain_cons_noProvider r req m rest hl]
      exact (tryChain_trace_sublist r req rest).trans (List.sublist_cons_self m rest)
    · rcases hav : p.available with _ | _
      · rw [tryChain_cons_unavail r req m rest p hl hav]
        exact (tryChain_trace_sublist r req rest).trans (List.sublist_cons_self m rest)
      · rcases hg : p.generate { req with modelName := m } with _ | resp
        · rw [tryChain_cons_fail r req m rest p hl hav hg]
          simpa using List.Sublist.cons₂ m (tryChain_trace_sublist r req rest)
        · rw [tryChain_cons_ok r req m rest p resp hl hav hg]
          simp

theorem tryChain_success (r : ModelRouter) (req : ModelRequest) (p : ModelProviderImpl)
    (hp : r.providers.lookup req.provider = some p) :
    ∀ chain resp, (tryChain r req chain).1 = .ok resp →
      ∃ tr q, (tryChain r req chain).2 = tr ++ [q] ∧ p.generate q = some resp ∧
        ∀ q' ∈ tr, p.generate q' = none
  | [], resp, h => by simp [tryChain] at h
  | m :: rest, resp, h => by
    rcases hav : p.available with _ | _
    · rw [tryChain_cons_unavail r req m rest p hp hav] at h ⊢
      exact tryChain_success r req p hp rest resp h
    · rcases hg : p.generate { req with modelName := m } with _ | r0
      · rw [tryChain_cons_fail r req m rest p hp hav hg] at h ⊢
        simp only at h
        rcases tryChain_success r req p hp rest resp h with ⟨tr', q, htr, hq, hfail⟩
        refine ⟨{ req with modelName := m } :: tr', q, ?_, hq, ?_⟩
        · simp [htr]
        · intro q' hq'
          rcases List.mem_cons.mp hq' with h' | h'
          · rw [h']; exact hg
          · exact hfail q' h'
      · rw [tryChain_cons_ok r req m rest p r0 hp hav hg] at h ⊢
        simp only [Except.ok.injEq] at h
        exact ⟨[], { req with modelName := m }, by simp, by rw [hg, h], by simp⟩

theorem tryChain_fallbacks_irrelevant (provs : List (String × ModelProviderImpl))
    (fb fb' : List (String × List String)) (req : ModelRequest) :
    ∀ chain, tryChain ⟨provs, fb⟩ req chain = tryChain ⟨provs, fb'⟩ req chain
  | [] => rfl
  | m :: rest => by
    simp only [tryChain]
    rw [tryChain_fallbacks_irrelevant provs fb fb' req rest]

theorem tryFallbacks_noChain (r : ModelRouter) (req : ModelRequest)
    (hnc : r.fallbacks.lookup req.modelName = none) :
    tryFallbacks r req = (.error .noFallbacksConfigured, []) := by
  simp [tryFallbacks, hnc]

theorem tryFallbacks_chain (r : ModelRouter) (req : ModelRequest) (chain : List String)
    (hc : r.fallbacks.lookup req.modelName = some chain) :
    tryFallbacks r req = tryChain r req chain := by
  simp [tryFallbacks, hc]

theorem RouteRequest_noProvider (r : ModelRouter) (req : ModelRequest)
    (hl : r.providers.lookup req.provider = none) :
    RouteRequest r req = (.error .providerNotFound, []) := by
  simp [RouteRequest, hl]

theorem RouteRequest_unavail (r : ModelRouter) (req : ModelRequest) (p : ModelProviderImpl)
    (hp : r.providers.lookup req.provider = some p) (hav : p.available = false) :
    RouteRequest r req = tryFallbacks r req := by
  simp [RouteRequest, hp, hav]

theorem RouteRequest_primary_ok (r : ModelRouter) (req : ModelRequest) (p : ModelProviderImpl)
    (resp : ModelResponse) (hp : r.providers.lookup req.provider = some p)
    (hav : p.available = true) (hg : p.generate req = some resp) :
    RouteRequest r req = (.ok resp, [req]) := by
  simp [RouteRequest, hp, hav, hg]

theorem RouteRequest_primary_fail (r : ModelRouter) (req : ModelRequest) (p : ModelProviderImpl)
    (hp : r.providers.lookup req.provider = some p) (hav : p.available = true)
    (hg : p.generate req = none) :
    RouteRequest r req = ((tryFallbacks r req).1, req :: (tryFallbacks r req).2) := by
  rcases hrec : tryFallbacks r req with ⟨res, tr⟩
  simp [RouteRequest, hp, hav, hg, hrec]

/-! ## C2 -/

/-- C2 (counterexample): with provider "openai" unavailable and fallback
chain m1 ↦ [m2, m3], `RouteRequest` returns the all-fallbacks-failed
error with an empty generation trace — contrary to the claim, no
generation is ever attempted with model m2 (or m3): the fallback
candidates reuse the same unavailable provider and are all skipped. -/
theorem c2_counterexample :
    RouteRequest routerC2 reqM1 = (.error .allFallbacksFailed, []) ∧
    ¬∃ q ∈ (RouteRequest routerC2 reqM1).2, q.modelName = "m2" := by
  refine ⟨rfl, ?_⟩
  rw [show RouteRequest routerC2 reqM1 = (.error .allFallbacksFailed, []) from rfl]
  simp

/-- C2 (amended): for a router whose provider P reports unavailable and
which has a fallback chain configured for the requested model,
`RouteRequest` does not attempt generation with the primary model, and —
because every fallback candidate is derived for the same provider P,
which is unavailable — attempts no generation at all and returns the
all-fallbacks-failed error. -/
theorem c2_unavailable_provider_attempts_nothing (r : ModelRouter) (req : ModelRequest)
    (p : ModelProviderImpl) (chain : List String)
    (hp : r.providers.lookup req.provider = some p) (hav : p.available = false)
    (hc : r.fallbacks.lookup req.modelName = some chain) :
    RouteRequest r req = (.error .allFallbacksFailed, []) := by
  rw [RouteRequest_unavail r req p hp hav, tryFallbacks_chain r req chain hc]
  exact tryChain_unavailable r req p hp hav chain

/-- Witness for C2 at the concrete unavailable-provider router. -/
theorem c2_witness : RouteRequest routerC2 reqM1 = (.error .allFallbacksFailed, []) :=
  c2_unavailable_provider_attempts_nothing routerC2 reqM1 unavailableProvider
    ["m2", "m3"] rfl rfl rfl

/-! ## C6 -/

/-- C6: the failure taxonomy of `RouteRequest`: an unregistered provider
id fails with "provider not found" whatever the fallback configuration
(the chain is never consulted); a failed-or-unavailable primary with no
chain configured for the request's model name fails with
"no fallbacks configured"; a failed-or-unavailable primary whose chain's
candidates are each skipped-or-failing fails with
"all fallbacks failed"; and the three error messages are exactly
those strings. -/
theorem c6_error_taxonomy (r : ModelRouter) (req : ModelRequest) :
    (r.providers.lookup req.provider = none →
      ∀ fb, RouteRequest ⟨r.providers, fb⟩ req = (.error .providerNotFound, [])) ∧
    (∀ p, r.providers.lookup req.provider = some p →
      p.available = false ∨ p.generate req = none →
      r.fallbacks.lookup req.modelName = none →
      (RouteRequest r req).1 = .error .noFallbacksConfigured) ∧
    (∀ p chain, r.providers.lookup req.provider = some p →
      p.available = false ∨ p.generate req = none →
      r.fallbacks.lookup req.modelName = some chain →
      (∀ m ∈ chain, p.available = false ∨ p.generate { req with modelName := m } = none) →
      (RouteRequest r req).1 = .error .allFallbacksFailed) ∧
    RouteError.message .providerNotFound = "provider not found" ∧
    RouteError.message .noFallbacksConfigured = "no fallbacks configured" ∧
    RouteError.message .allFallbacksFailed = "all fallbacks failed" := by
  refine ⟨fun h fb => RouteRequest_noProvider ⟨r.providers, fb⟩ req h, ?_, ?_, rfl, rfl, rfl⟩
  · intro p hp hfail hnc
    rcases hav : p.available with _ | _
    · rw [RouteRequest_unavail r req p hp hav, tryFallbacks_noChain r req hnc]
    · have hgen : p.generate req = none := hfail.resolve_left (by simp [hav])
      rw [RouteRequest_primary_fail r req p hp hav hgen, tryFallbacks_noChain r req hnc]
  · intro p chain hp hfail hc hall
    rcases hav : p.available with _ | _
    · rw [RouteRequest_unavail r req p hp hav, tryFallbacks_chain r req chain hc]
      exact tryChain_allFail r req p hp chain hall
    · have hgen : p.generate req = none := hfail.resolve_left (by simp [hav])
      rw [RouteRequest_primary_fail r req p hp hav hgen, tryFallbacks_chain r req chain hc]
      exact tryChain_allFail r req p hp chain hall

/-- Witness for C6: each taxonomy case at a concrete router. -/
theorem c6_witness :
    RouteRequest ⟨[], []⟩ reqM1 = (.error .providerNotFound, []) ∧
    (RouteRequest routerNoChain reqM1).1 = .error .noFallbacksConfigured ∧
    (RouteRequest routerChainFails reqM1).1 = .error .allFallbacksFailed :=
  ⟨(c6_error_taxonomy ⟨[], []⟩ reqM1).1 rfl [],
   (c6_error_taxonomy routerNoChain reqM1).2.1 flakyProvider rfl (Or.inr rfl) rfl,
   (c6_error_taxonomy routerChainFails reqM1).2.2.1 flakyProvider ["m2", "m3"] rfl
     (Or.inr rfl) rfl (by intro m _; exact Or.inr rfl)⟩

/-! ## C7 -/

/-- C7: fallback resolution is exactly one level deep over the fixed
configured list: every request handed to `GenerateText` during fallback
is the original request with only the model name substituted by a chain
member; candidates are tried in configured list order; all candidates
are skipped when the provider is unavailable; a success is the first
successful generation (all earlier attempts failed); and the outcome is
unchanged under any fallback table agreeing on the requested model's
chain — the resolver never consults any other (in particular any
candidate's own) fallback chain. -/
theorem c7_fallback_single_level (r : ModelRouter) (req : ModelRequest)
    (p : ModelProviderImpl) (chain : List String)
    (hp : r.providers.lookup req.provider = some p)
    (hc : r.fallbacks.lookup req.modelName = some chain) :
    (∀ q ∈ (tryFallbacks r req).2, ∃ m ∈ chain, q = { req with modelName := m }) ∧
    ((tryFallbacks r req).2.map (fun q => q.modelName)).Sublist chain ∧
    (p.available = false → (tryFallbacks r req).2 = []) ∧
    (∀ resp, (tryFallbacks r req).1 = .ok resp →
      ∃ tr q, (tryFallbacks r req).2 = tr ++ [q] ∧ p.generate q = some resp ∧
        ∀ q' ∈ tr, p.generate q' = none) ∧
    (∀ fb', fb'.lookup req.modelName = some chain →
      tryFallbacks ⟨r.providers, fb'⟩ req = tryFallbacks r req) := by
  rw [tryFallbacks_chain r req chain hc]
  refine ⟨tryChain_trace_mem r req chain, tryChain_trace_sublist r req chain, ?_, ?_, ?_⟩
  · intro hav
    rw [tryChain_unavailable r req p hp hav chain]
  · exact tryChain_success r req p hp chain
  · intro fb' hfb'
    rw [tryFallbacks_chain ⟨r.providers, fb'⟩ req chain hfb']
    exact tryChain_fallbacks_irrelevant r.providers fb' r.fallbacks req chain

/-- Witness for C7 at a router whose provider succeeds only on "m3":
the attempted models are in configured order a sublist of the chain, and
the success is the last attempt, all earlier ones having failed. -/
theorem c7_witness :
    ((tryFallbacks routerC7 reqM1).2.map (fun q => q.modelName)).Sublist ["m2", "m3"] ∧
    ∃ tr q, (tryFallbacks routerC7 reqM1).2 = tr ++ [q] ∧
      pickyProvider.generate q = some ⟨"ok", "openai", "m3", 5, 1, []⟩ ∧
      ∀ q' ∈ tr, pickyProvider.generate q' = none :=
  ⟨(c7_fallback_single_level routerC7 reqM1 pickyProvider ["m2", "m3"] rfl rfl).2.1,
   (c7_fallback_single_level routerC7 reqM1 pickyProvider ["m2", "m3"] rfl rfl).2.2.2.1
     ⟨"ok", "openai", "m3", 5, 1, []⟩ rfl⟩

/-! ## Helper lemmas: the retry loop -/

theorem wrap64_eq_self (n : Int) (h0 : 0 ≤ n) (h1 : n < 2 ^ 63) : wrap64 n = n := by
  have e1 : (2 : Int) ^ 63 = 9223372036854775808 := by norm_num
  have e2 : (2 : Int) ^ 64 = 18446744073709551616 := by norm_num
  rw [e1] at h1
  rw [wrap64, e1, e2, Int.emod_eq_of_lt (by omega) (by omega)]
  omega

theorem backoffDelay_eq_of_no_overflow (base : Int) (i : Nat) (hb : 0 ≤ base)
    (h : base * 2 ^ i < 2 ^ 63) : backoffDelay base i = base * 2 ^ i := by
  rcases eq_or_lt_of_le hb with hb0 | hb1
  · simp [backoffDelay, ← hb0, wrap64_eq_self 0 le_rfl (by norm_num)]
  · have h2i : (2 : Int) ^ i < 2 ^ 63 := by
      calc (2 : Int) ^ i ≤ base * 2 ^ i := le_mul_of_one_le_left (by positivity) hb1
        _ < 2 ^ 63 := h
    rw [backoffDelay, wrap64_eq_self _ (by positivity) h2i,
      wrap64_eq_self _ (by positivity) h]

theorem retryLoop_attempts_le (mk : Nat → Except String ProxyResponse)
    (cancelled : Nat → Bool) (base : Int) :
    ∀ fuel start last, ((retryLoop mk cancelled base start fuel last).2.1).length ≤ fuel
  | 0, _, _ => by simp [retryLoop]
  | fuel + 1, start, last => by
    simp only [retryLoop]
    rcases mk start with e | r
    · rcases hc : cancelled start with _ | _
      · simp only [Bool.false_eq_true, if_false]
        rcases hrec : retryLoop mk cancelled base (start + 1) fuel (some e) with ⟨res, as, ws⟩
        have := retryLoop_attempts_le mk cancelled base fuel (start + 1) (some e)
        rw [hrec] at this
        simpa using Nat.succ_le_succ this
      · simp
    · simp

theorem retryLoop_step_ok (mk : Nat → Except String ProxyResponse) (cancelled : Nat → Bool)
    (base : Int) (start fuel : Nat) (last : Option String) (r : ProxyResponse)
    (hmk : mk start = .ok r) :
    retryLoop mk cancelled base start (fuel + 1) last = (.ok r, [start], []) := by
  simp [retryLoop, hmk]

theorem retryLoop_step_cancel (mk : Nat → Except String ProxyResponse) (cancelled : Nat → Bool)
    (base : Int) (start fuel : Nat) (last : Option String) (e0 : String)
    (hmk : mk start = .error e0) (hc : cancelled start = true) :
    retryLoop mk cancelled base start (fuel + 1) last =
      (.error .contextError, [start], []) := by
  simp [retryLoop, hmk, hc]

theorem retryLoop_step_fail (mk : Nat → Except String ProxyResponse) (cancelled : Nat → Bool)
    (base : Int) (start fuel : Nat) (last : Option String) (e0 : String)
    (hmk : mk start = .error e0) (hc : cancelled start = false) :
    retryLoop mk cancelled base start (fuel + 1) last =
      ((retryLoop mk cancelled base (start + 1) fuel (some e0)).1,
       start :: (retryLoop mk cancelled base (start + 1) fuel (some e0)).2.1,
       backoffDelay base start :: (retryLoop mk cancelled base (start + 1) fuel (some e0)).2.2) := by
  rcases hrec : retryLoop mk cancelled base (start + 1) fuel (some e0) with ⟨res, as, ws⟩
  simp [retryLoop, hmk, hc, hrec]

theorem retryLoop_allFail (mk : Nat → Except String ProxyResponse) (cancelled : Nat → Bool)
    (base : Int) (e : Nat → String)
    (hmk : ∀ i, mk i = .error (e i)) (hnc : ∀ i, cancelled i = false) :
    ∀ fuel, 0 < fuel → ∀ start last, retryLoop mk cancelled base start fuel last =
      (.error (.maxRetriesExceeded (some (e (start + fuel - 1)))),
       List.range' start fuel, (List.range' start fuel).map (backoffDelay base))
  | 0, h => absurd h (by simp)
  | 1, _ => fun start last => by
    rw [retryLoop_step_fail mk cancelled base start 0 last (e start) (hmk start) (hnc start)]
    simp [retryLoop, List.range']
  | fuel + 2, _ => fun start last => by
    have ih := retryLoop_allFail mk cancelled base e hmk hnc (fuel + 1) (by omega)
      (start + 1) (some (e start))
    rw [retryLoop_step_fail mk cancelled base start (fuel + 1) last (e start)
      (hmk start) (hnc start), ih]
    have harith : start + 1 + (fuel + 1) - 1 = start + (fuel + 2) - 1 := by omega
    simp [List.range'_succ, harith]

theorem retryLoop_firstSuccess (mk : Nat → Except String ProxyResponse)
    (cancelled : Nat → Bool) (base : Int) (e : Nat → String) (resp : ProxyResponse) (k : Nat)
    (hfail : ∀ i, i < k → mk i = .error (e i)) (hok : mk k = .ok resp)
    (hnc : ∀ i, cancelled i = false) :
    ∀ fuel start last, start ≤ k → k < start + fuel →
      retryLoop mk cancelled base start fuel last =
        (.ok resp, List.range' start (k - start + 1),
         (List.range' start (k - start)).map (backoffDelay base))
  | 0, start, last, h1, h2 => absurd h2 (by omega)
  | fuel + 1, start, last, h1, h2 => by
    rcases eq_or_lt_of_le h1 with heq | hlt
    · subst heq
      rw [retryLoop_step_ok mk cancelled base start fuel last resp hok]
      simp [List.range']
    · have ih := retryLoop_firstSuccess mk cancelled base e resp k hfail hok hnc fuel
        (start + 1) (some (e start)) (by omega) (by omega)
      rw [retryLoop_step_fail mk cancelled base start fuel last (e start)
        (hfail start hlt) (hnc start), ih]
      have hk1 : k - start + 1 = (k - (start + 1) + 1) + 1 := by omega
      have hk2 : k - start = (k - (start + 1)) + 1 := by omega
      rw [hk1, hk2]
      simp [List.range'_succ]

theorem retryLoop_cancelled (mk : Nat → Except String ProxyResponse)
    (cancelled : Nat → Bool) (base : Int) (e : Nat → String) (k : Nat)
    (hfail : ∀ i, i ≤ k → mk i = .error (e i))
    (hnc : ∀ i, i < k → cancelled i = false) (hck : cancelled k = true) :
    ∀ fuel start last, start ≤ k → k < start + fuel →
      retryLoop mk cancelled base start fuel last =
        (.error .contextError, List.range' start (k - start + 1),
         (List.range' start (k - start)).map (backoffDelay base))
  | 0, start, last, h1, h2 => absurd h2 (by omega)
  | fuel + 1, start, last, h1, h2 => by
    rcases eq_or_lt_of_le h1 with heq | hlt
    · subst heq
      rw [retryLoop_step_cancel mk cancelled base start fuel last (e start)
        (hfail start le_rfl) hck]
      simp [List.range']
    · have ih := retryLoop_cancelled mk cancelled base e k hfail hnc hck fuel
        (start + 1) (some (e start)) (by omega) (by omega)
      rw [retryLoop_step_fail mk cancelled base start fuel last (e start)
        (hfail start (le_of_lt hlt)) (hnc start hlt), ih]
      have hk1 : k - start + 1 = (k - (start + 1) + 1) + 1 := by omega
      have hk2 : k - start = (k - (start + 1)) + 1 := by omega
      rw [hk1, hk2]
      simp [List.range'_succ]

/-! ## C4 -/

/-- C4 (counterexample): with `maxRetries = 2` and
`backoffBase = 2^62` the wait after attempt index 1 is the wrapped
64-bit product `-2^63`, not `backoffBase * 2^1 = 2^63`: the backoff
formula of the claim fails once the 64-bit multiplication overflows. -/
theorem c4_counterexample :
    (makeRequestWithRetries ⟨2, 4611686018427387904⟩ alwaysFail neverCancel).2.2 =
      [4611686018427387904, -9223372036854775808] ∧
    (-9223372036854775808 : Int) ≠ 4611686018427387904 * 2 ^ 1 := by
  constructor
  · rfl
  · decide

/-- C4 (amended): the retry executor invokes the attempt function at
most the configured maximum number of times; when the first `k` attempts
fail and attempt `k` succeeds within the budget, it returns that result
immediately, having invoked exactly attempts `0..k` and completed
exactly the `k` earlier backoff waits; when all `N` attempts fail it
returns the wrapped retries-exhausted error carrying the last underlying
failure, having invoked attempts `0..N-1` and waited after each failed
attempt; each wait equals `backoffBase * 2^attemptIndex` computed in
64-bit signed arithmetic — with no jitter and no cap, so equal to the
exact product whenever that product does not overflow. -/
theorem c4_retry_executor (cfg : RetryConfig) (mk : Nat → Except String ProxyResponse)
    (cancelled : Nat → Bool) (e : Nat → String) (resp : ProxyResponse) (k : Nat) :
    ((makeRequestWithRetries cfg mk cancelled).2.1).length ≤ cfg.maxRetries.toNat ∧
    ((∀ i, i < k → mk i = .error (e i)) → mk k = .ok resp → (∀ i, cancelled i = false) →
      k < cfg.maxRetries.toNat →
      makeRequestWithRetries cfg mk cancelled =
        (.ok resp, List.range (k + 1), (List.range k).map (backoffDelay cfg.backoffBase))) ∧
    ((∀ i, mk i = .error (e i)) → (∀ i, cancelled i = false) → 0 < cfg.maxRetries.toNat →
      makeRequestWithRetries cfg mk cancelled =
        (.error (.maxRetriesExceeded (some (e (cfg.maxRetries.toNat - 1)))),
         List.range cfg.maxRetries.toNat,
         (List.range cfg.maxRetries.toNat).map (backoffDelay cfg.backoffBase))) ∧
    (∀ i, 0 ≤ cfg.backoffBase → cfg.backoffBase * 2 ^ i < 2 ^ 63 →
      backoffDelay cfg.backoffBase i = cfg.backoffBase * 2 ^ i) := by
  refine ⟨retryLoop_attempts_le mk cancelled cfg.backoffBase cfg.maxRetries.toNat 0 none,
    ?_, ?_, fun i hb hlt => backoffDelay_eq_of_no_overflow cfg.backoffBase i hb hlt⟩
  · intro hfail hok hnc hk
    rw [makeRequestWithRetries, retryLoop_firstSuccess mk cancelled cfg.backoffBase e resp k
      hfail hok hnc cfg.maxRetries.toNat 0 none (Nat.zero_le k) (by omega)]
    simp [List.range_eq_range']
  · intro hfail hnc h0
    rw [makeRequestWithRetries, retryLoop_allFail mk cancelled cfg.backoffBase e hfail hnc
      cfg.maxRetries.toNat h0 0 none]
    simp [List.range_eq_range']

/-- Witness for C4: three attempts allowed, failure twice then success
at attempt 2. -/
theorem c4_witness :
    makeRequestWithRetries ⟨3, 100⟩ mkSucceedAt2 neverCancel =
      (.ok respOk, List.range 3, (List.range 2).map (backoffDelay 100)) :=
  (c4_retry_executor ⟨3, 100⟩ mkSucceedAt2 neverCancel (fun _ => "transient") respOk 2).2.1
    (fun i hi => by simp [mkSucceedAt2, show i ≠ 2 by omega])
    (by simp [mkSucceedAt2]) (fun _ => rfl) (by norm_num)

/-! ## C5 -/

/-- C5: if the governing context concludes during the backoff wait that
follows attempt `k` (all attempts through `k` having failed), the
executor returns the context error immediately: attempts `0..k` were
invoked — attempt `k` itself ran to completion, cancellation preempting
only the inter-attempt wait — no later attempt runs, and only the `k`
earlier waits completed. -/
theorem c5_cancel_during_backoff (cfg : RetryConfig)
    (mk : Nat → Except String ProxyResponse) (cancelled : Nat → Bool)
    (e : Nat → String) (k : Nat)
    (hfail : ∀ i, i ≤ k → mk i = .error (e i))
    (hnc : ∀ i, i < k → cancelled i = false) (hck : cancelled k = true)
    (hk : k < cfg.maxRetries.toNat) :
    makeRequestWithRetries cfg mk cancelled =
      (.error .contextError, List.range (k + 1),
       (List.range k).map (backoffDelay cfg.backoffBase)) ∧
    k ∈ (makeRequestWithRetries cfg mk cancelled).2.1 := by
  have h := retryLoop_cancelled mk cancelled cfg.backoffBase e k hfail hnc hck
    cfg.maxRetries.toNat 0 none (Nat.zero_le k) (by omega)
  rw [makeRequestWithRetries] at *
  rw [h]
  simp [List.range_eq_range']

/-- Witness for C5: budget of three attempts, cancellation during the
wait after attempt 1. -/
theorem c5_witness :
    makeRequestWithRetries ⟨3, 100⟩ alwaysFail cancelAt1 =
      (.error .contextError, List.range 2, (List.range 1).map (backoffDelay 100)) ∧
    1 ∈ (makeRequestWithRetries ⟨3, 100⟩ alwaysFail cancelAt1).2.1 :=
  c5_cancel_during_backoff ⟨3, 100⟩ alwaysFail cancelAt1 (fun _ => "transient") 1
    (fun _ _ => rfl) (fun i hi => by simp [cancelAt1]; omega) (by simp [cancelAt1])
    (by norm_num)

/-! ## C10 -/

/-- C10: with a zero or negative configured maximum,
`makeRequestWithRetries` never invokes the attempt function (empty
attempt trace) and returns the "max retries exceeded" error wrapping a
nil (`none`) underlying cause. -/
theorem c10_zero_or_negative_retries (cfg : RetryConfig)
    (mk : Nat → Except String ProxyResponse) (cancelled : Nat → Bool)
    (h : cfg.maxRetries ≤ 0) :
    makeRequestWithRetries cfg mk cancelled = (.error (.maxRetriesExceeded none), [], []) := by
  rw [makeRequestWithRetries, Int.toNat_of_nonpos h]
  rfl

/-- Witness for C10: `maxRetries = -1` with an oracle that would succeed
on any attempt — yet no attempt is made and the wrapped-nil error is
returned. -/
theorem c10_witness :
    makeRequestWithRetries ⟨-1, 1000⟩ okOracle neverCancel =
      (.error (.maxRetriesExceeded none), [], []) :=
  c10_zero_or_negative_retries ⟨-1, 1000⟩ okOracle neverCancel (by decide)

/-! ## Helper lemmas: the request pipeline -/

theorem applyFilter_cacheKey (cfg : ProxyConfig) (req : Request) :
    (applyFilter cfg req).cacheKey = req.cacheKey := by
  rcases h : cfg.filterFunction with _ | f <;> simp [applyFilter, h]

theorem checkRateLimits_denied (cfg : ProxyConfig) (m : ProxyMetrics)
    (h : cfg.costLimit ≤ m.estimatedCost) :
    checkRateLimits cfg m = some (.admissionDenied cfg.costLimit) := by
  simp [checkRateLimits, h]

theorem checkRateLimits_pass (cfg : ProxyConfig) (m : ProxyMetrics)
    (h : m.estimatedCost < cfg.costLimit) : checkRateLimits cfg m = none := by
  rw [checkRateLimits, if_neg (not_le.mpr h)]

theorem ProcessRequest_denied (cfg : ProxyConfig) (st : ProxyState) (c : CallInput)
    (h : cfg.costLimit ≤ st.metrics.estimatedCost) :
    ProcessRequest cfg st c = ⟨.error (.admissionDenied cfg.costLimit), st, [], false⟩ := by
  simp [ProcessRequest, checkRateLimits_denied cfg st.metrics h]

theorem ProcessRequest_hit (cfg : ProxyConfig) (st : ProxyState) (c : CallInput)
    (entry : CacheEntry) (hadm : checkRateLimits cfg st.metrics = none)
    (hce : cfg.cacheEnabled = true)
    (hhit : checkCache st.cache c.now c.req.cacheKey = some entry) :
    ProcessRequest cfg st c =
      ⟨.ok ⟨entry.response, entry.tokensUsed, entry.cost, true, c.hitLatency, "", []⟩,
       { st with metrics := recordMetrics st.metrics 0 entry.tokensUsed entry.cost true },
       [], false⟩ := by
  simp [ProcessRequest, hadm, hce, applyFilter_cacheKey, hhit]

theorem ProcessRequest_miss_ok (cfg : ProxyConfig) (st : ProxyState) (c : CallInput)
    (resp : ProxyResponse) (atts : List Nat) (ws : List Int)
    (hadm : checkRateLimits cfg st.metrics = none)
    (hmiss : (if cfg.cacheEnabled then checkCache st.cache c.now c.req.cacheKey else none) = none)
    (hret : makeRequestWithRetries cfg.retryConfig (c.makeRequest (applyFilter cfg c.req))
      c.cancelled = (.ok resp, atts, ws)) :
    ProcessRequest cfg st c =
      ⟨.ok resp,
       ⟨recordMetrics st.metrics c.missLatency resp.tokensUsed resp.cost false,
        if cfg.cacheEnabled then cacheResponse st.cache c.now c.ttl c.req.cacheKey resp
        else st.cache⟩,
       atts, true⟩ := by
  simp [ProcessRequest, hadm, applyFilter_cacheKey, hmiss, hret]

theorem ProcessRequest_miss_err (cfg : ProxyConfig) (st : ProxyState) (c : CallInput)
    (err : ProxyError) (atts : List Nat) (ws : List Int)
    (hadm : checkRateLimits cfg st.metrics = none)
    (hmiss : (if cfg.cacheEnabled then checkCache st.cache c.now c.req.cacheKey else none) = none)
    (hret : makeRequestWithRetries cfg.retryConfig (c.makeRequest (applyFilter cfg c.req))
      c.cancelled = (.error err, atts, ws)) :
    ProcessRequest cfg st c = ⟨.error err, st, atts, true⟩ := by
  simp [ProcessRequest, hadm, applyFilter_cacheKey, hmiss, hret]

theorem ProcessRequest_cost (cfg : ProxyConfig) (st : ProxyState) (c : CallInput) :
    (ProcessRequest cfg st c).state.metrics.estimatedCost =
      st.metrics.estimatedCost + okCost (ProcessRequest cfg st c).result := by
  rcases hadm : checkRateLimits cfg st.metrics with _ | e
  · rcases hcc : (if cfg.cacheEnabled then checkCache st.cache c.now c.req.cacheKey else none)
      with _ | entry
    · rcases hret : makeRequestWithRetries cfg.retryConfig
        (c.makeRequest (applyFilter cfg c.req)) c.cancelled with ⟨res, atts, ws⟩
      rcases res with err | resp
      · rw [ProcessRequest_miss_err cfg st c err atts ws hadm hcc hret]
        simp [okCost]
      · rw [ProcessRequest_miss_ok cfg st c resp atts ws hadm hcc hret]
        simp [okCost, recordMetrics]
    · rcases hce : cfg.cacheEnabled with _ | _
      · rw [hce] at hcc
        simp at hcc
      · rw [hce] at hcc
        simp only [if_true] at hcc
        rw [ProcessRequest_hit cfg st c entry hadm hce hcc]
        simp [okCost, recordMetrics]
  · simp [ProcessRequest, hadm, okCost]

theorem processSeq_cons (cfg : ProxyConfig) (st : ProxyState) (c : CallInput)
    (cs : List CallInput) :
    processSeq cfg st (c :: cs) =
      ((processSeq cfg (ProcessRequest cfg st c).state cs).1,
       (ProcessRequest cfg st c).result :: (processSeq cfg (ProcessRequest cfg st c).state cs).2) := by
  rcases h : processSeq cfg (ProcessRequest cfg st c).state cs with ⟨st', rest⟩
  simp [processSeq, h]

theorem processSeq_cost (cfg : ProxyConfig) :
    ∀ (ins : List CallInput) (st : ProxyState),
      (processSeq cfg st ins).1.metrics.estimatedCost =
        st.metrics.estimatedCost + ((processSeq cfg st ins).2.map okCost).sum
  | [], st => by simp [processSeq]
  | c :: cs, st => by
    rw [processSeq_cons]
    simp only [List.map_cons, List.sum_cons]
    rw [processSeq_cost cfg cs (ProcessRequest cfg st c).state, ProcessRequest_cost cfg st c]
    ring

/-! ## C1 -/

/-- C1: when the shared cumulative estimated cost has reached the
configured cost ceiling, `ProcessRequest` fails with the
admission-denied error carrying that ceiling, returns the state
untouched (no metrics update), invokes no provider attempt and never
enters the retry executor; and, the state being unchanged and there
being no automatic reset, every subsequent call from that state fails
identically. -/
theorem c1_admission_denied (cfg : ProxyConfig) (st : ProxyState) (c : CallInput)
    (h : cfg.costLimit ≤ st.metrics.estimatedCost) :
    ProcessRequest cfg st c = ⟨.error (.admissionDenied cfg.costLimit), st, [], false⟩ ∧
    ∀ ins, processSeq cfg st ins =
      (st, ins.map fun _ => .error (.admissionDenied cfg.costLimit)) := by
  refine ⟨ProcessRequest_denied cfg st c h, ?_⟩
  intro ins
  induction ins with
  | nil => simp [processSeq]
  | cons c' cs ih =>
    rw [processSeq_cons, ProcessRequest_denied cfg st c' h]
    simp [ih]

/-- Witness for C1: cost ceiling 5 already reached; the call and every
later call are denied with the ceiling value, leaving state intact. -/
theorem c1_witness :
    ProcessRequest cfgTight stAtLimit inOk =
      ⟨.error (.admissionDenied 5), stAtLimit, [], false⟩ ∧
    processSeq cfgTight stAtLimit [inOk, inOk] =
      (stAtLimit, [.error (.admissionDenied 5), .error (.admissionDenied 5)]) := by
  have h := c1_admission_denied cfgTight stAtLimit inOk (le_refl (5 : ℚ))
  exact ⟨h.1, h.2 [inOk, inOk]⟩

/-! ## C3 -/

/-- C3: with admission passing, caching enabled, a non-empty cache key
and an unexpired entry for it, `ProcessRequest` returns the cached
payload with the cache-hit flag true, records an outcome with zero
added latency and the cache-hit counter incremented (total requests
incremented too), and neither invokes the retry executor nor any
provider attempt. -/
theorem c3_cache_hit (cfg : ProxyConfig) (st : ProxyState) (c : CallInput) (e : CacheEntry)
    (hadm : st.metrics.estimatedCost < cfg.costLimit)
    (hce : cfg.cacheEnabled = true)
    (hkey : c.req.cacheKey ≠ "")
    (hentry : st.cache.lookup c.req.cacheKey = some e)
    (hfresh : c.now < e.expiration) :
    (ProcessRequest cfg st c).result =
      .ok ⟨e.response, e.tokensUsed, e.cost, true, c.hitLatency, "", []⟩ ∧
    (ProcessRequest cfg st c).state.metrics =
      recordMetrics st.metrics 0 e.tokensUsed e.cost true ∧
    (ProcessRequest cfg st c).state.metrics.latency = st.metrics.latency ∧
    (ProcessRequest cfg st c).state.metrics.cacheHits = st.metrics.cacheHits + 1 ∧
    (ProcessRequest cfg st c).state.metrics.totalRequests = st.metrics.totalRequests + 1 ∧
    (ProcessRequest cfg st c).providerAttempts = [] ∧
    (ProcessRequest cfg st c).retryInvoked = false := by
  have hhit : checkCache st.cache c.now c.req.cacheKey = some e := by
    simp [checkCache, hkey, hentry, hfresh]
  rw [ProcessRequest_hit cfg st c e (checkRateLimits_pass cfg st.metrics hadm) hce hhit]
  simp [recordMetrics]

/-- Witness for C3: an unexpired entry for "k1" is served from cache
without entering the retry executor. -/
theorem c3_witness :
    (ProcessRequest cfgCache stWithEntry inOk).result =
      .ok ⟨"cached!", 4, 1, true, 1, "", []⟩ ∧
    (ProcessRequest cfgCache stWithEntry inOk).retryInvoked = false :=
  ⟨(c3_cache_hit cfgCache stWithEntry inOk ⟨"cached!", 10, 4, 1⟩
      (by norm_num [cfgCache, stWithEntry]) rfl (by decide) rfl (by decide)).1,
   (c3_cache_hit cfgCache stWithEntry inOk ⟨"cached!", 10, 4, 1⟩
      (by norm_num [cfgCache, stWithEntry]) rfl (by decide) rfl (by decide)).2.2.2.2.2.2⟩

/-! ## C8 -/

/-- C8 (counterexample): nothing constrains a response's cost to be
non-negative: a successfully processed request whose response reports
cost `-1` strictly decreases the cumulative estimated cost, so the
cumulative cost is not monotonically non-decreasing as claimed. -/
theorem c8_counterexample :
    (ProcessRequest cfgNoCache stStart inNeg).result = .ok respNeg ∧
    (ProcessRequest cfgNoCache stStart inNeg).state.metrics.estimatedCost <
      stStart.metrics.estimatedCost := by
  have hres : (ProcessRequest cfgNoCache stStart inNeg).result = .ok respNeg := rfl
  refine ⟨hres, ?_⟩
  rw [ProcessRequest_cost cfgNoCache stStart inNeg, hres]
  norm_num [okCost, respNeg]

/-- C8 (amended): over any request sequence the final cumulative
estimated cost equals the initial cumulative cost plus the sum of the
returned responses' individual costs (failed calls contributing
nothing) — in particular, for an all-successful sequence from a zero
start it equals the sum of the responses' costs; and the cumulative
cost is non-decreasing, per step and across a sequence, provided every
returned response's cost is non-negative (which no code enforces). -/
theorem c8_cost_accounting (cfg : ProxyConfig) (st : ProxyState) (ins : List CallInput) :
    ((∀ r ∈ (processSeq cfg st ins).2, ∃ resp, r = .ok resp) →
      st.metrics.estimatedCost = 0 →
      (processSeq cfg st ins).1.metrics.estimatedCost =
        ((processSeq cfg st ins).2.map okCost).sum) ∧
    ((processSeq cfg st ins).1.metrics.estimatedCost =
      st.metrics.estimatedCost + ((processSeq cfg st ins).2.map okCost).sum) ∧
    (∀ c, 0 ≤ okCost (ProcessRequest cfg st c).result →
      st.metrics.estimatedCost ≤ (ProcessRequest cfg st c).state.metrics.estimatedCost) ∧
    ((∀ r ∈ (processSeq cfg st ins).2, 0 ≤ okCost r) →
      st.metrics.estimatedCost ≤ (processSeq cfg st ins).1.metrics.estimatedCost) := by
  refine ⟨?_, processSeq_cost cfg ins st, ?_, ?_⟩
  · intro _ h0
    rw [processSeq_cost cfg ins st, h0, zero_add]
  · intro c hc
    rw [ProcessRequest_cost cfg st c]
    exact le_add_of_nonneg_right hc
  · intro hpos
    rw [processSeq_cost cfg ins st]
    refine le_add_of_nonneg_right (List.sum_nonneg ?_)
    intro x hx
    rcases List.mem_map.mp hx with ⟨r, hr, hxr⟩
    exact hxr ▸ hpos r hr

/-- Witness for C8: a one-call all-successful sequence from the zero
state sums exactly the returned cost, and non-negative costs keep the
cumulative total non-decreasing. -/
theorem c8_witness :
    (processSeq cfgNoCache stZero [inOk]).1.metrics.estimatedCost =
      ((processSeq cfgNoCache stZero [inOk]).2.map okCost).sum ∧
    stStart.metrics.estimatedCost ≤
      (ProcessRequest cfgNoCache stStart inOk).state.metrics.estimatedCost ∧
    stZero.metrics.estimatedCost ≤
      (processSeq cfgNoCache stZero [inOk]).1.metrics.estimatedCost := by
  refine ⟨(c8_cost_accounting cfgNoCache stZero [inOk]).1 ?_ rfl,
    (c8_cost_accounting cfgNoCache stStart [inOk]).2.2.1 inOk ?_,
    (c8_cost_accounting cfgNoCache stZero [inOk]).2.2.2 ?_⟩
  · intro r hr
    rw [show (processSeq cfgNoCache stZero [inOk]).2 = [.ok respOk] from rfl] at hr
    simp only [List.mem_singleton] at hr
    exact ⟨respOk, hr⟩
  · rw [show (ProcessRequest cfgNoCache stStart inOk).result = .ok respOk from rfl]
    norm_num [okCost, respOk]
  · intro r hr
    rw [show (processSeq cfgNoCache stZero [inOk]).2 = [.ok respOk] from rfl] at hr
    simp only [List.mem_singleton] at hr
    rw [hr]
    norm_num [okCost, respOk]

/-! ## C9 -/

/-- C9 (counterexample): a successfully processed request with an empty
cache key, caching enabled, does get its response stored: the cache
afterwards holds an entry under the empty key — the claim's
"never stores its response into the cache" fails (the modelled §4.1
`put` writes unconditionally). -/
theorem c9_counterexample :
    (ProcessRequest cfgCache stZero inNoKey).result = .ok respOk ∧
    (ProcessRequest cfgCache stZero inNoKey).state.cache.lookup "" =
      some ⟨"answer", 60, 10, 1⟩ :=
  ⟨rfl, rfl⟩

/-- C9 (amended): a request with an empty cache key is never answered
from the cache — lookups with the empty key always miss, and whenever
admission passes the returned value is exactly the retry executor's
result (the retry path is always taken) — but, with caching enabled and
a successful outcome, the response is stored under the empty key, an
entry no lookup can ever return. -/
theorem c9_empty_key (cfg : ProxyConfig) (st : ProxyState) (c : CallInput)
    (hkey : c.req.cacheKey = "") :
    (∀ cache now, checkCache cache now "" = none) ∧
    (checkRateLimits cfg st.metrics = none →
      (ProcessRequest cfg st c).retryInvoked = true ∧
      (ProcessRequest cfg st c).result =
        (makeRequestWithRetries cfg.retryConfig (c.makeRequest (applyFilter cfg c.req))
          c.cancelled).1) ∧
    (cfg.cacheEnabled = true → ∀ resp atts ws,
      makeRequestWithRetries cfg.retryConfig (c.makeRequest (applyFilter cfg c.req))
        c.cancelled = (.ok resp, atts, ws) →
      checkRateLimits cfg st.metrics = none →
      (ProcessRequest cfg st c).state.cache = cacheResponse st.cache c.now c.ttl "" resp) := by
  have hmiss : (if cfg.cacheEnabled then checkCache st.cache c.now c.req.cacheKey
      else none) = none := by
    cases hce : cfg.cacheEnabled <;> simp [hce, hkey, checkCache]
  refine ⟨fun cache now => by simp [checkCache], ?_, ?_⟩
  · intro hadm
    rcases hret : makeRequestWithRetries cfg.retryConfig
      (c.makeRequest (applyFilter cfg c.req)) c.cancelled with ⟨res, atts, ws⟩
    rcases res with err | resp
    · rw [ProcessRequest_miss_err cfg st c err atts ws hadm hmiss hret]
      simp
    · rw [ProcessRequest_miss_ok cfg st c resp atts ws hadm hmiss hret]
      simp
  · intro hce resp atts ws hret hadm
    rw [ProcessRequest_miss_ok cfg st c resp atts ws hadm hmiss hret]
    simp [hce, hkey]

/-- Witness for C9 at a concrete empty-key call: the empty key never
hits, the retry path is taken, and the store under the empty key is the
modelled `put`. -/
theorem c9_witness :
    checkCache [("", ⟨"answer", 60, 10, 1⟩)] 0 "" = none ∧
    (ProcessRequest cfgCache stZero inNoKey).retryInvoked = true ∧
    (ProcessRequest cfgCache stZero inNoKey).state.cache =
      cacheResponse stZero.cache inNoKey.now inNoKey.ttl "" respOk := by
  have h := c9_empty_key cfgCache stZero inNoKey rfl
  exact ⟨h.1 [("", ⟨"answer", 60, 10, 1⟩)] 0, (h.2.1 rfl).1,
    h.2.2 rfl respOk [0] [] rfl rfl⟩

end LLMSpec
